import Mathlib

/-!
Verification of the optimization-notebook repository: a 0/1 knapsack model
and a linear assignment model, both built over exact rational problem data
and handed to an external solver.  We embed the problem data, the model
construction, and the result-printing loops as Lean definitions, and prove
the properties the specification states about them.  All decimal literals
are read as exact rationals.
-/

set_option maxRecDepth 10000

namespace Knap

/-- The item index set `I = {i for i in range(1, 11)}`, in the ascending
order in which the notebook's loops iterate over it. -/
def items : List ℕ := [1, 2, 3, 4, 5, 6, 7, 8, 9, 10]

/-- The item set `I` as a finite set, for quantifying over subsets. -/
def itemsFinset : Finset ℕ := {1, 2, 3, 4, 5, 6, 7, 8, 9, 10}

/-- The value dictionary `v` of the notebook, as a finite map sending each
item to its exact rational value (0 outside the dictionary's keys). -/
def v : ℕ → ℚ
  | 1 => 5.94 | 2 => 7.44 | 3 => 6.42 | 4 => 5.9 | 5 => 4.81
  | 6 => 6.81 | 7 => 4.94 | 8 => 9.03 | 9 => 9.67 | 10 => 4.45
  | _ => 0

/-- The weight dictionary `w` of the notebook, as a finite map sending each
item to its exact rational weight (0 outside the dictionary's keys). -/
def w : ℕ → ℚ
  | 1 => 8.13 | 2 => 5.76 | 3 => 6.11 | 4 => 9.33 | 5 => 1.64
  | 6 => 1.78 | 7 => 1.18 | 8 => 8.49 | 9 => 8.0 | 10 => 8.83
  | _ => 0

/-- The value dictionary's entry list, exactly as written in the notebook. -/
def vEntries : List (ℕ × ℚ) :=
  [(1, 5.94), (2, 7.44), (3, 6.42), (4, 5.9), (5, 4.81),
   (6, 6.81), (7, 4.94), (8, 9.03), (9, 9.67), (10, 4.45)]

/-- The weight dictionary's entry list, exactly as written in the notebook. -/
def wEntries : List (ℕ × ℚ) :=
  [(1, 8.13), (2, 5.76), (3, 6.11), (4, 9.33), (5, 1.64),
   (6, 1.78), (7, 1.18), (8, 8.49), (9, 8.0), (10, 8.83)]

/-- The knapsack capacity `b = 26.66`. -/
def b : ℚ := 26.66

/-- The selection the solver reports as optimal: items 2, 3, 5, 6, 7, 9. -/
def optSel : Finset ℕ := {2, 3, 5, 6, 7, 9}

/-- The reported optimal selection as an ascending list. -/
def optSelList : List ℕ := [2, 3, 5, 6, 7, 9]

/-- The item values scaled to hundredths, as natural numbers
(`vCenti i = 100 * v i`); used to make exhaustive checks computable. -/
def vCenti : ℕ → ℕ
  | 1 => 594 | 2 => 744 | 3 => 642 | 4 => 590 | 5 => 481
  | 6 => 681 | 7 => 494 | 8 => 903 | 9 => 967 | 10 => 445
  | _ => 0

/-- The item weights scaled to hundredths, as natural numbers
(`wCenti i = 100 * w i`). -/
def wCenti : ℕ → ℕ
  | 1 => 813 | 2 => 576 | 3 => 611 | 4 => 933 | 5 => 164
  | 6 => 178 | 7 => 118 | 8 => 849 | 9 => 800 | 10 => 883
  | _ => 0

/-- Optimality check for one candidate selection, over the scaled data:
if its total weight is within capacity then its total value is at most
4009 hundredths, with equality only for the reported optimal selection. -/
def selectionOK (s : List ℕ) : Bool :=
  decide (((s.map wCenti).sum ≤ 2666) →
    ((s.map vCenti).sum ≤ 4009 ∧ ((s.map vCenti).sum = 4009 → s = optSelList)))

/-- Exhaustive optimality check over every sublist of the item list. -/
def feasibleCheck : Bool := items.sublists.all selectionOK

/-- The 0/1 point reported by the solver: the indicator function of the
optimal selection, as the rational solution values `X[i].x`. -/
def optX (i : ℕ) : ℚ := if i ∈ optSel then 1 else 0

/-- Variable kinds of the modeling API (only binary variables are used). -/
inductive VarType
  | binary

/-- Objective senses of the modeling API. -/
inductive ObjSense
  | minimize
  | maximize

/-- Comparison kinds for linear constraints of the modeling API. -/
inductive ConstrRel
  | le
  | eq

/-- A linear constraint: a name, a linear expression as coefficient-variable
pairs, a comparison, and a right-hand side. -/
structure LinearConstr where
  cname : String
  lhs : List (ℚ × ℕ)
  rel : ConstrRel
  rhs : ℚ

/-- The state of a solver model under construction: its name, its variables
with their kinds, its objective expression and sense, and its constraints,
in insertion order. -/
structure SolverModel where
  mname : String
  vars : List (ℕ × VarType)
  objective : List (ℚ × ℕ)
  sense : ObjSense
  constrs : List LinearConstr

/-- `gurobipy.Model(s)`: a fresh model with no variables, an empty
objective (minimized by default), and no constraints. -/
def newModel (s : String) : SolverModel :=
  SolverModel.mk s [] [] ObjSense.minimize []

/-- `model.addVars(idx, vtype=t)`: append one variable per index. -/
def addVars (m : SolverModel) (idx : List ℕ) (t : VarType) : SolverModel :=
  { m with vars := m.vars ++ idx.map (fun i => (i, t)) }

/-- `model.setObjective(e, sense=s)`. -/
def setObjective (m : SolverModel) (e : List (ℚ × ℕ)) (s : ObjSense) : SolverModel :=
  { m with objective := e, sense := s }

/-- `model.addConstr(cstr)`: append one constraint. -/
def addConstr (m : SolverModel) (cstr : LinearConstr) : SolverModel :=
  { m with constrs := m.constrs ++ [cstr] }

/-- `LinExpr.add`: append one term to a linear expression. -/
def linAdd (e : List (ℚ × ℕ)) (coef : ℚ) (i : ℕ) : List (ℚ × ℕ) :=
  e ++ [(coef, i)]

/-- The value of a linear expression at an assignment of the variables. -/
def evalLin (e : List (ℚ × ℕ)) (x : ℕ → ℚ) : ℚ :=
  (e.map (fun t => t.1 * x t.2)).sum

/-- Satisfaction of one linear constraint at an assignment. -/
def constrSat (cstr : LinearConstr) (x : ℕ → ℚ) : Prop :=
  match cstr.rel with
  | ConstrRel.le => evalLin cstr.lhs x ≤ cstr.rhs
  | ConstrRel.eq => evalLin cstr.lhs x = cstr.rhs

/-- The objective expression `total_value`, built by the notebook's loop
`for i in I: total_value.add(v[i]*X[i])`. -/
def totalValueExpr : List (ℚ × ℕ) :=
  items.foldl (fun e i => linAdd e (v i) i) []

/-- The left-hand side `i_sum` of the capacity constraint, built by the
notebook's loop `for i in I: i_sum.add(w[i]*X[i])`. -/
def capacityExpr : List (ℚ × ℕ) :=
  items.foldl (fun e i => linAdd e (w i) i) []

/-- The capacity constraint `i_sum <= b` added under the name
`capacity_constraint`. -/
def capacityConstr : LinearConstr :=
  LinearConstr.mk ("capacity_constraint") capacityExpr ConstrRel.le b

/-- The knapsack model exactly as the notebook builds it: a fresh model,
binary variables over the items, the maximized total-value objective, and
the single capacity constraint. -/
def knapsackModel : SolverModel :=
  addConstr
    (setObjective (addVars (newModel ("Knapsack-Problem")) items VarType.binary)
      totalValueExpr ObjSense.maximize)
    capacityConstr

/-- The stated formulation's objective: the sum over the items of value
times indicator. -/
def specTotalValue (x : ℕ → ℚ) : ℚ := (items.map (fun i => v i * x i)).sum

/-- The stated formulation's selected weight: the sum over the items of
weight times indicator. -/
def specTotalWeight (x : ℕ → ℚ) : ℚ := (items.map (fun i => w i * x i)).sum

/-- The items printed by the result loop
`for i in I: if X[i].x > 0.1: print(...)`, in iteration order. -/
def printedItems (x : ℕ → ℚ) : List ℕ :=
  items.filter (fun i => decide ((0.1 : ℚ) < x i))

/-- The text printed for one included item. -/
def itemLine (i : ℕ) : String :=
  (" - Item ") ++ (toString i) ++ (" included")

/-- The lines printed by the knapsack result loop. -/
def printedItemLines (x : ℕ → ℚ) : List String :=
  (printedItems x).map itemLine

end Knap

namespace Asg

/-- The instance size `SIZE = 10`. -/
def SIZE : ℕ := 10

/-- The resource index set `M = {i for i in range(1, SIZE+1)}`, in the
ascending order in which the notebook's loops iterate over it. -/
def resources : List ℕ := [1, 2, 3, 4, 5, 6, 7, 8, 9, 10]

/-- The task index set `N = {j for j in range(1, SIZE+1)}`, in iteration
order. -/
def tasks : List ℕ := [1, 2, 3, 4, 5, 6, 7, 8, 9, 10]

/-- The resource set `M` as a finite set. -/
def resourcesFinset : Finset ℕ := {1, 2, 3, 4, 5, 6, 7, 8, 9, 10}

/-- The task set `N` as a finite set. -/
def tasksFinset : Finset ℕ := {1, 2, 3, 4, 5, 6, 7, 8, 9, 10}

/-- Row 1 of the assignment cost dictionary: the exact rational cost
of assigning resource 1 to each task. -/
def cRow1 : ℕ → ℚ
  | 1 => 5.4881350392732475
  | 2 => 7.151893663724195
  | 3 => 6.027633760716439
  | 4 => 5.448831829968968
  | 5 => 4.236547993389047
  | 6 => 6.458941130666561
  | 7 => 4.375872112626925
  | 8 => 8.917730007820797
  | 9 => 9.636627605010293
  | 10 => 3.8344151882577773
  | _ => 0

/-- Row 2 of the assignment cost dictionary: the exact rational cost
of assigning resource 2 to each task. -/
def cRow2 : ℕ → ℚ
  | 1 => 7.917250380826646
  | 2 => 5.288949197529044
  | 3 => 5.680445610939323
  | 4 => 9.25596638292661
  | 5 => 0.7103605819788694
  | 6 => 0.8712929970154071
  | 7 => 0.2021839744032572
  | 8 => 8.32619845547938
  | 9 => 7.781567509498505
  | 10 => 8.700121482468191
  | _ => 0

/-- Row 3 of the assignment cost dictionary: the exact rational cost
of assigning resource 3 to each task. -/
def cRow3 : ℕ → ℚ
  | 1 => 9.78618342232764
  | 2 => 7.9915856421672355
  | 3 => 4.6147936225293185
  | 4 => 7.805291762864554
  | 5 => 1.1827442586893322
  | 6 => 6.399210213275238
  | 7 => 1.433532874090464
  | 8 => 9.446689170495839
  | 9 => 5.218483217500717
  | 10 => 4.146619399905235
  | _ => 0

/-- Row 4 of the assignment cost dictionary: the exact rational cost
of assigning resource 4 to each task. -/
def cRow4 : ℕ → ℚ
  | 1 => 2.64555612104627
  | 2 => 7.742336894342166
  | 3 => 4.5615033221654855
  | 4 => 5.684339488686485
  | 5 => 0.18789800436355142
  | 6 => 6.176354970758771
  | 7 => 6.120957227224214
  | 8 => 6.169339968747569
  | 9 => 9.437480785146242
  | 10 => 6.818202991034834
  | _ => 0

/-- Row 5 of the assignment cost dictionary: the exact rational cost
of assigning resource 5 to each task. -/
def cRow5 : ℕ → ℚ
  | 1 => 3.59507900573786
  | 2 => 4.3703195379934145
  | 3 => 6.976311959272649
  | 4 => 0.6022547162926983
  | 5 => 6.667667154456677
  | 6 => 6.706378696181594
  | 7 => 2.103825610738409
  | 8 => 1.289262976548533
  | 9 => 3.1542835092418384
  | 10 => 3.637107709426226
  | _ => 0

/-- Row 6 of the assignment cost dictionary: the exact rational cost
of assigning resource 6 to each task. -/
def cRow6 : ℕ → ℚ
  | 1 => 5.701967704178797
  | 2 => 4.386015134623204
  | 3 => 9.883738380592263
  | 4 => 1.0204481074802807
  | 5 => 2.088767560948347
  | 6 => 1.6130951788499626
  | 7 => 6.531083254653984
  | 8 => 2.532916025397821
  | 9 => 4.663107728563062
  | 10 => 2.4442559200160274
  | _ => 0

/-- Row 7 of the assignment cost dictionary: the exact rational cost
of assigning resource 7 to each task. -/
def cRow7 : ℕ → ℚ
  | 1 => 1.5896958364551972
  | 2 => 1.1037514116430513
  | 3 => 6.563295894652734
  | 4 => 1.381829513486138
  | 5 => 1.965823616800535
  | 6 => 3.687251706609641
  | 7 => 8.209932298479352
  | 8 => 0.9710127579306127
  | 9 => 8.379449074988038
  | 10 => 0.9609840789396307
  | _ => 0

/-- Row 8 of the assignment cost dictionary: the exact rational cost
of assigning resource 8 to each task. -/
def cRow8 : ℕ → ℚ
  | 1 => 9.764594650133958
  | 2 => 4.686512016477016
  | 3 => 9.767610881903371
  | 4 => 6.04845519745046
  | 5 => 7.3926357939830165
  | 6 => 0.39187792254320675
  | 7 => 2.828069625764096
  | 8 => 1.201965612131689
  | 9 => 2.9614019752214493
  | 10 => 1.1872771895424405
  | _ => 0

/-- Row 9 of the assignment cost dictionary: the exact rational cost
of assigning resource 9 to each task. -/
def cRow9 : ℕ → ℚ
  | 1 => 3.1798317939397602
  | 2 => 4.1426299451467
  | 3 => 0.6414749634878436
  | 4 => 6.924721193700199
  | 5 => 5.666014542065751
  | 6 => 2.653894909394454
  | 7 => 5.232480534666997
  | 8 => 0.9394051075844168
  | 9 => 5.759464955561793
  | 10 => 9.292961975762141
  | _ => 0

/-- Row 10 of the assignment cost dictionary: the exact rational cost
of assigning resource 10 to each task. -/
def cRow10 : ℕ → ℚ
  | 1 => 3.1856895245132364
  | 2 => 6.674103799636817
  | 3 => 1.3179786240439217
  | 4 => 7.163272041185655
  | 5 => 2.894060929472011
  | 6 => 1.8319136200711683
  | 7 => 5.865129348100831
  | 8 => 0.20107546187493552
  | 9 => 8.289400292173632
  | 10 => 0.046954761925470656
  | _ => 0

/-- The cost dictionary `c` of the assignment notebook: the exact
rational cost `c[(i, j)]` of assigning resource `i` to task `j`, as
recorded by the model objective (0 outside the 10 x 10 key grid). -/
def c : ℕ → ℕ → ℚ
  | 1, j => cRow1 j
  | 2, j => cRow2 j
  | 3, j => cRow3 j
  | 4, j => cRow4 j
  | 5, j => cRow5 j
  | 6, j => cRow6 j
  | 7, j => cRow7 j
  | 8, j => cRow8 j
  | 9, j => cRow9 j
  | 10, j => cRow10 j
  | _, _ => 0


/-- The cost dictionary as a key-value list, built like the notebook's
comprehension over `itertools.product(M, N)`. -/
def cEntries : List ((ℕ × ℕ) × ℚ) :=
  (resources.flatMap (fun i => tasks.map (fun j => (i, j)))).map (fun p => (p, c p.1 p.2))

/-- The constraint `task_{j}_assigned_to_one_resource`: the resources
assigned to task `j` sum to one. -/
def taskConstraint (x : ℕ → ℕ → ℚ) (j : ℕ) : Prop :=
  (∑ i ∈ resourcesFinset, x i j) = 1

/-- The constraint `resource_{i}_assigned_to_one_task`: the tasks assigned
to resource `i` sum to one. -/
def resourceConstraint (x : ℕ → ℕ → ℚ) (i : ℕ) : Prop :=
  (∑ j ∈ tasksFinset, x i j) = 1

/-- The matching the solver reports as optimal, as a map from each
resource to its assigned task. -/
def optAssign : ℕ → ℕ
  | 1 => 10 | 2 => 7 | 3 => 5 | 4 => 1 | 5 => 9
  | 6 => 4 | 7 => 2 | 8 => 6 | 9 => 3 | 10 => 8
  | _ => 0

/-- The 0/1 point reported by the solver: the indicator of the reported
matching, as the rational solution values `X[i,j].x`. -/
def optXA (i j : ℕ) : ℚ := if j = optAssign i then 1 else 0

/-- The reported matching as a permutation of 0-based indices. -/
def optPermFun : Fin 10 → Fin 10 := ![9, 6, 4, 0, 8, 3, 1, 5, 2, 7]

/-- The inverse of the reported matching on 0-based indices. -/
def optPermInv : Fin 10 → Fin 10 := ![3, 6, 8, 5, 2, 7, 1, 9, 4, 0]

/-- The reported matching as a permutation of `Fin 10`. -/
def optPerm : Equiv.Perm (Fin 10) :=
  Equiv.mk optPermFun optPermInv
    (by intro x; fin_cases x <;> rfl)
    (by intro x; fin_cases x <;> rfl)

/-- The total cost of a permutation of the resources: the sum over each
resource `i+1` of the cost of its assigned task, in 1-based indices. -/
def assignCost (sg : Equiv.Perm (Fin 10)) : ℚ :=
  ∑ i : Fin 10, c (i.1 + 1) ((sg i).1 + 1)

/-- Dual potential over resources, certifying optimality of the reported
matching (exact rationals). -/
def uDual : ℕ → ℚ
  | 1 => 5.853556420900547564
  | 2 => 2.774474857312144044
  | 3 => 4.005823756999350844
  | 4 => 3.010977502673570064
  | 5 => 3.1542835092418384
  | 6 => 3.5724769004294208
  | 7 => 1.1037514116430513
  | 8 => 2.35125964412266495
  | 9 => 1.38959233401216282
  | 10 => 2.06609599456824092
  | _ => 0

/-- Dual potential over tasks, certifying optimality of the reported
matching (exact rationals). -/
def vDual : ℕ → ℚ
  | 1 => -(0.365421381627300064 : ℚ)
  | 2 => 0
  | 3 => -(0.74811737052431922 : ℚ)
  | 4 => -(2.5520287929491401 : ℚ)
  | 5 => -(2.823079498310018644 : ℚ)
  | 6 => -(1.9593817215794582 : ℚ)
  | 7 => -(2.572290882908886844 : ℚ)
  | 8 => -(1.8650205326933054 : ℚ)
  | 9 => 0
  | 10 => -(2.019141232642770264 : ℚ)
  | _ => 0

/-- The resource-task pairs printed by the loop
`for i in M: for j in N: if X[i,j].x > 0.1: print(...); break`:
for each resource in order, the first task over the threshold, if any. -/
def printedPairs (x : ℕ → ℕ → ℚ) : List (ℕ × ℕ) :=
  resources.filterMap (fun i =>
    (tasks.find? (fun j => decide ((0.1 : ℚ) < x i j))).map (fun j => (i, j)))

/-- The text printed for one assignment. -/
def pairLine (p : ℕ × ℕ) : String :=
  (" - Resource ") ++ (toString p.1) ++ (" -> Task ") ++ (toString p.2)

/-- The lines printed by the assignment result loop. -/
def printedPairLines (x : ℕ → ℕ → ℚ) : List String :=
  (printedPairs x).map pairLine

end Asg


namespace Knap

/-- The value function agrees entry by entry with the notebook's value
dictionary. -/
theorem vEntries_eq : vEntries = items.map (fun i => (i, v i)) := rfl

/-- The weight function agrees entry by entry with the notebook's weight
dictionary. -/
theorem wEntries_eq : wEntries = items.map (fun i => (i, w i)) := rfl

theorem feasibleCheck_true : feasibleCheck = true := by decide

/-- The item set as a finite set agrees with the item list. -/
theorem items_toFinset : items.toFinset = itemsFinset := by decide

/-- The rational item values are exactly the scaled integer values over
the item list. -/
theorem v_centi : ∀ i ∈ items, v i * 100 = (vCenti i : ℚ) := by
  intro i hi
  fin_cases hi <;> norm_num [v, vCenti]

/-- The rational item weights are exactly the scaled integer weights over
the item list. -/
theorem w_centi : ∀ i ∈ items, w i * 100 = (wCenti i : ℚ) := by
  intro i hi
  fin_cases hi <;> norm_num [w, wCenti]

/-- A sum of rationals that are pointwise hundredths of naturals is the
cast of the natural sum, after scaling by 100. -/
theorem sum_centi (g : ℕ → ℚ) (gN : ℕ → ℕ) (t : List ℕ)
    (h : ∀ i ∈ t, g i * 100 = (gN i : ℚ)) :
    (t.map g).sum * 100 = ((t.map gN).sum : ℚ) := by
  induction t with
  | nil => simp
  | cons a t ih =>
    rw [List.map_cons, List.sum_cons, List.map_cons, List.sum_cons, Nat.cast_add, add_mul,
      h a (List.mem_cons_self a t), ih (fun i hi => h i (List.mem_cons_of_mem a hi))]

/-- Every subset of the elements of a list is realized by a duplicate-free
sublist of that list. -/
theorem exists_sublist_toFinset :
    ∀ (l : List ℕ) (S : Finset ℕ), S ⊆ l.toFinset →
      ∃ t : List ℕ, t.Sublist l ∧ t.Nodup ∧ t.toFinset = S := by
  intro l
  induction l with
  | nil =>
    intro S hS
    refine ⟨[], List.Sublist.refl [], List.nodup_nil, ?_⟩
    have hS0 : S = ∅ := Finset.subset_empty.mp (by simpa using hS)
    simp [hS0]
  | cons a l ih =>
    intro S hS
    by_cases ha : a ∈ S
    · have h1 : S.erase a ⊆ l.toFinset := by
        intro y hy
        have hyS : y ∈ S := Finset.mem_of_mem_erase hy
        have hya : y ≠ a := Finset.ne_of_mem_erase hy
        have hm := hS hyS
        rw [List.toFinset_cons, Finset.mem_insert] at hm
        exact hm.resolve_left hya
      obtain ⟨t, hsub, hnd, hts⟩ := ih (S.erase a) h1
      refine ⟨a :: t, hsub.cons₂ a, ?_, ?_⟩
      · rw [List.nodup_cons]
        refine ⟨fun hmem => ?_, hnd⟩
        have hcontra : a ∈ S.erase a := hts ▸ List.mem_toFinset.mpr hmem
        exact absurd hcontra (Finset.not_mem_erase a S)
      · rw [List.toFinset_cons, hts, Finset.insert_erase ha]
    · have h1 : S ⊆ l.toFinset := by
        intro y hy
        have hm := hS hy
        rw [List.toFinset_cons, Finset.mem_insert] at hm
        rcases hm with h | h
        · exact absurd (h ▸ hy) ha
        · exact h
      obtain ⟨t, hsub, hnd, hts⟩ := ih S h1
      exact ⟨t, hsub.cons a, hnd, hts⟩

/-- Core optimality fact: every subset of the items within capacity has
value at most 40.09, with equality only for the reported selection. -/
theorem knap_key : ∀ S ∈ itemsFinset.powerset, S.sum w ≤ b →
    S.sum v ≤ 40.09 ∧ (S.sum v = 40.09 → S = optSel) := by
  intro S hS hw
  rw [Finset.mem_powerset, ← items_toFinset] at hS
  obtain ⟨t, hsub, hnd, hts⟩ := exists_sublist_toFinset items S hS
  have hvb : ∀ i ∈ t, v i * 100 = (vCenti i : ℚ) := fun i hi => v_centi i (hsub.subset hi)
  have hwb : ∀ i ∈ t, w i * 100 = (wCenti i : ℚ) := fun i hi => w_centi i (hsub.subset hi)
  have hSw : S.sum w = (t.map w).sum := by rw [← hts]; exact List.sum_toFinset w hnd
  have hSv : S.sum v = (t.map v).sum := by rw [← hts]; exact List.sum_toFinset v hnd
  have hwt : ((t.map wCenti).sum : ℚ) ≤ 2666 := by
    rw [← sum_centi w wCenti t hwb]
    calc (t.map w).sum * 100 ≤ b * 100 := by
          refine mul_le_mul_of_nonneg_right ?_ (by norm_num)
          rw [← hSw]; exact hw
      _ = 2666 := by norm_num [b]
  have hwtN : (t.map wCenti).sum ≤ 2666 := by exact_mod_cast hwt
  have hOK := of_decide_eq_true
    (List.all_eq_true.mp feasibleCheck_true t (List.mem_sublists.mpr hsub))
  obtain ⟨hv4009, himp⟩ := hOK hwtN
  constructor
  · have h1 : ((t.map vCenti).sum : ℚ) ≤ 4009 := by exact_mod_cast hv4009
    rw [← sum_centi v vCenti t hvb] at h1
    have h2 : S.sum v * 100 ≤ 40.09 * 100 := by
      rw [hSv]
      calc (t.map v).sum * 100 ≤ 4009 := h1
        _ = 40.09 * 100 := by norm_num
    exact le_of_mul_le_mul_right h2 (by norm_num)
  · intro hEq
    have h2 : ((t.map vCenti).sum : ℚ) = 4009 := by
      rw [← sum_centi v vCenti t hvb, ← hSv, hEq]; norm_num
    have h3 : (t.map vCenti).sum = 4009 := by exact_mod_cast h2
    rw [← hts, himp h3]
    decide

/-- The reported optimal selection is within capacity. -/
theorem optSel_feasible : optSel.sum w ≤ b := by
  rw [show optSel = optSelList.toFinset from by decide, List.sum_toFinset w (by decide)]
  norm_num [optSelList, w, b]

/-- The reported optimal selection's total value, exactly. -/
theorem optSel_value : optSel.sum v = 40.09 := by
  rw [show optSel = optSelList.toFinset from by decide, List.sum_toFinset v (by decide)]
  norm_num [optSelList, v]

/-- C1: for the 10-item knapsack instance, the selection {2,3,5,6,7,9} is
feasible, its value is 7.44 + 6.42 + 4.81 + 6.81 + 4.94 + 9.67 = 40.09
exactly in rational arithmetic, and it is the unique optimal feasible
subset. -/
theorem knapsack_instance_optimal :
    optSel ⊆ itemsFinset ∧ optSel.sum w ≤ b ∧
    optSel.sum v = 7.44 + 6.42 + 4.81 + 6.81 + 4.94 + 9.67 ∧
    optSel.sum v = 40.09 ∧
    (∀ S ∈ itemsFinset.powerset, S.sum w ≤ b →
      S.sum v ≤ 40.09 ∧ (S.sum v = 40.09 → S = optSel)) :=
  ⟨by decide, optSel_feasible, by rw [optSel_value]; norm_num, optSel_value, knap_key⟩

theorem knapsack_instance_optimal_witness :
    optSel.sum v ≤ 40.09 ∧ (optSel.sum v = 40.09 → optSel = optSel) :=
  knapsack_instance_optimal.2.2.2.2 optSel (by decide) optSel_feasible

/-- C2: every subset of the items whose total weight is within the
capacity has total value at most the reported optimum 40.09. -/
theorem feasible_value_le_optimum :
    ∀ S ∈ itemsFinset.powerset, S.sum w ≤ b → S.sum v ≤ 40.09 :=
  fun S hS hw => (knap_key S hS hw).1

theorem feasible_value_le_optimum_witness : optSel.sum v ≤ 40.09 :=
  feasible_value_le_optimum optSel (by decide) optSel_feasible

/-- C3: any assignment satisfying the model's capacity constraint has
selected weight at most the capacity; in particular the reported optimal
selection weighs 5.76 + 6.11 + 1.64 + 1.78 + 1.18 + 8.0 = 24.47, which
does not exceed 26.66. -/
theorem weight_capacity_invariant :
    (∀ x : ℕ → ℚ, constrSat capacityConstr x → specTotalWeight x ≤ b) ∧
    specTotalWeight optX = 5.76 + 6.11 + 1.64 + 1.78 + 1.18 + 8.0 ∧
    specTotalWeight optX = 24.47 ∧ (24.47 : ℚ) ≤ b :=
  ⟨fun _ h => h,
   by norm_num [specTotalWeight, items, w, optX, optSel],
   by norm_num [specTotalWeight, items, w, optX, optSel],
   by norm_num [b]⟩

theorem weight_capacity_invariant_witness : specTotalWeight optX ≤ b :=
  weight_capacity_invariant.1 optX
    (by show evalLin capacityExpr optX ≤ b
        norm_num [evalLin, capacityExpr, items, linAdd, w, optX, optSel, b])

/-- C7: the value and weight dictionaries are keyed exactly by the item
set, every value and weight is positive, and the capacity is
non-negative. -/
theorem knap_data_invariant :
    vEntries.map Prod.fst = items ∧ wEntries.map Prod.fst = items ∧
    (∀ p ∈ vEntries, 0 < p.2) ∧ (∀ p ∈ wEntries, 0 < p.2) ∧ 0 ≤ b :=
  ⟨rfl, rfl,
   by intro p hp; fin_cases hp <;> norm_num,
   by intro p hp; fin_cases hp <;> norm_num,
   by norm_num [b]⟩

/-- C6: the built knapsack model is an exact transcription of the stated
formulation: maximization sense, the objective evaluates to the total
value of the selection, the single constraint is exactly the capacity
bound, and the variables are exactly one binary variable per item. -/
theorem knap_model_transcription :
    knapsackModel.sense = ObjSense.maximize ∧
    (∀ x : ℕ → ℚ, evalLin knapsackModel.objective x = specTotalValue x) ∧
    knapsackModel.constrs = [capacityConstr] ∧
    (∀ x : ℕ → ℚ, (∀ cstr ∈ knapsackModel.constrs, constrSat cstr x) ↔ specTotalWeight x ≤ b) ∧
    knapsackModel.vars = items.map (fun i => (i, VarType.binary)) := by
  refine ⟨rfl, fun x => rfl, rfl, fun x => ?_, rfl⟩
  constructor
  · intro hall
    exact hall capacityConstr
      (by simp [knapsackModel, addConstr, setObjective, addVars, newModel])
  · intro hs cstr hc
    have hc1 : cstr = capacityConstr := by
      simpa [knapsackModel, addConstr, setObjective, addVars, newModel] using hc
    rw [hc1]
    exact hs

theorem knap_model_transcription_witness :
    evalLin knapsackModel.objective optX = specTotalValue optX :=
  knap_model_transcription.2.1 optX

/-- Helper: a 0/1 solution value is above the 0.1 print threshold exactly
when it equals 1. -/
theorem threshold_iff (q : ℚ) (h : q = 0 ∨ q = 1) : ((0.1 : ℚ) < q ↔ q = 1) := by
  rcases h with h | h
  · rw [h]
    constructor
    · intro hlt; exact absurd hlt (by norm_num)
    · intro he; exact absurd he (by norm_num)
  · rw [h]
    constructor
    · intro _; rfl
    · intro _; norm_num

/-- C9: on a 0/1 solution, the printing loop prints exactly the items
whose decision variable equals 1, iterating over the items in ascending
order; the threshold test `X[i].x > 0.1` agrees with `X_i = 1`. -/
theorem knap_printing_exact (x : ℕ → ℚ) (h : ∀ i ∈ items, x i = 0 ∨ x i = 1) :
    printedItems x = items.filter (fun i => decide (x i = 1)) ∧
    (∀ i ∈ items, ((0.1 : ℚ) < x i ↔ x i = 1)) ∧
    printedItemLines x = (items.filter (fun i => decide (x i = 1))).map itemLine := by
  have key : ∀ i ∈ items, ((0.1 : ℚ) < x i ↔ x i = 1) :=
    fun i hi => threshold_iff (x i) (h i hi)
  have hfilter : printedItems x = items.filter (fun i => decide (x i = 1)) := by
    unfold printedItems
    apply List.filter_congr
    intro i hi
    simp only [decide_eq_decide]
    exact key i hi
  exact ⟨hfilter, key, by unfold printedItemLines; rw [hfilter]⟩

/-- Helper: the reported solution point is a 0/1 vector. -/
theorem optX_01 : ∀ i ∈ items, optX i = 0 ∨ optX i = 1 := by
  intro i hi
  by_cases h : i ∈ optSel <;> simp [optX, h]

theorem knap_printing_exact_witness :
    printedItems optX = items.filter (fun i => decide (optX i = 1)) ∧
    (∀ i ∈ items, ((0.1 : ℚ) < optX i ↔ optX i = 1)) ∧
    printedItemLines optX = (items.filter (fun i => decide (optX i = 1))).map itemLine :=
  knap_printing_exact optX optX_01

end Knap

namespace Asg

/-- Each 1-based index of a `Fin 10` lies in the resource list. -/
theorem fin_succ_mem : ∀ i : Fin 10, i.1 + 1 ∈ resources := by decide

/-- The 0-based reported permutation agrees with the 1-based reported
matching. -/
theorem optPerm_apply : ∀ i : Fin 10, (optPerm i).1 + 1 = optAssign (i.1 + 1) := by decide

set_option maxHeartbeats 1600000 in
/-- Dual feasibility: the potentials are below every edge cost. -/
theorem dual_feasible : ∀ i ∈ resources, ∀ j ∈ tasks, uDual i + vDual j ≤ c i j := by
  intro i hi j hj
  simp only [resources, tasks, List.mem_cons, List.not_mem_nil, or_false] at hi hj
  rcases hi with rfl|rfl|rfl|rfl|rfl|rfl|rfl|rfl|rfl|rfl <;>
    rcases hj with rfl|rfl|rfl|rfl|rfl|rfl|rfl|rfl|rfl|rfl <;>
      norm_num [uDual, vDual, c, cRow1, cRow2, cRow3, cRow4, cRow5,
        cRow6, cRow7, cRow8, cRow9, cRow10]

/-- The reported matching costs exactly 14.37781091866779297. -/
theorem optPerm_cost_val : assignCost optPerm = 14.37781091866779297 := by
  simp only [assignCost, optPerm_apply, Fin.sum_univ_succ, Fin.sum_univ_zero]
  norm_num [c, optAssign, cRow1, cRow2, cRow3, cRow4, cRow5,
    cRow6, cRow7, cRow8, cRow9, cRow10]

/-- The dual potentials sum to the reported matching's cost. -/
theorem dual_sum_val :
    (∑ i : Fin 10, uDual (i.1 + 1)) + (∑ j : Fin 10, vDual (j.1 + 1)) =
      14.37781091866779297 := by
  simp only [Fin.sum_univ_succ, Fin.sum_univ_zero]
  norm_num [uDual, vDual]

/-- C5: the reported matching (1,10), (2,7), (3,5), (4,1), (5,9), (6,4),
(7,2), (8,6), (9,3), (10,8) has cost strictly between 14.3778 and
14.3779 and is a minimum-cost perfect matching: its total cost is at most
that of every permutation of the ten resources. -/
theorem assignment_instance_optimal :
    (List.ofFn (fun i : Fin 10 => (i.1 + 1, (optPerm i).1 + 1)) =
      [(1, 10), (2, 7), (3, 5), (4, 1), (5, 9), (6, 4), (7, 2), (8, 6), (9, 3), (10, 8)]) ∧
    14.3778 < assignCost optPerm ∧ assignCost optPerm < 14.3779 ∧
    ∀ sg : Equiv.Perm (Fin 10), assignCost optPerm ≤ assignCost sg := by
  refine ⟨by decide, by rw [optPerm_cost_val]; norm_num, by rw [optPerm_cost_val]; norm_num, ?_⟩
  intro sg
  have h1 : ∀ i ∈ Finset.univ (α := Fin 10),
      uDual (i.1 + 1) + vDual ((sg i).1 + 1) ≤ c (i.1 + 1) ((sg i).1 + 1) :=
    fun i _ => dual_feasible (i.1 + 1) (fin_succ_mem i) ((sg i).1 + 1) (fin_succ_mem (sg i))
  have h2 := Finset.sum_le_sum h1
  rw [Finset.sum_add_distrib] at h2
  rw [Equiv.sum_comp sg (fun j : Fin 10 => vDual (j.1 + 1))] at h2
  calc assignCost optPerm = 14.37781091866779297 := optPerm_cost_val
    _ = (∑ i : Fin 10, uDual (i.1 + 1)) + (∑ j : Fin 10, vDual (j.1 + 1)) := dual_sum_val.symm
    _ ≤ ∑ i : Fin 10, c (i.1 + 1) ((sg i).1 + 1) := h2
    _ = assignCost sg := rfl

/-- C8: the resource and task sets are finite of equal size 10, and the
cost dictionary is keyed by exactly the full cross product of the two,
with 100 entries. -/
theorem asg_data_invariant :
    resourcesFinset = Finset.Icc 1 10 ∧ tasksFinset = Finset.Icc 1 10 ∧
    resourcesFinset.card = SIZE ∧ tasksFinset.card = SIZE ∧
    resourcesFinset.card = tasksFinset.card ∧
    cEntries.map Prod.fst = resources.flatMap (fun i => tasks.map (fun j => (i, j))) ∧
    cEntries.length = SIZE * SIZE ∧
    (∀ i ∈ resourcesFinset, ∀ j ∈ tasksFinset, (i, j) ∈ cEntries.map Prod.fst) := by
  refine ⟨by decide, by decide, by decide, by decide, by decide, rfl, rfl, by decide⟩

/-- Helper: over 0/1 rational values, a row or column summing to one
pins down exactly one cell equal to 1. -/
theorem filter_card_of_sum_01 (S : Finset ℕ) (g : ℕ → ℚ)
    (h01 : ∀ a ∈ S, g a = 0 ∨ g a = 1) (hsum : (∑ a ∈ S, g a) = 1) :
    (S.filter (fun a => g a = 1)).card = 1 := by
  classical
  have h2 : (∑ a ∈ S, g a) = ∑ a ∈ S, (if g a = 1 then (1 : ℚ) else 0) := by
    refine Finset.sum_congr rfl (fun a ha => ?_)
    rcases h01 a ha with h | h
    · rw [h]; norm_num
    · rw [h]; norm_num
  rw [h2, Finset.sum_boole] at hsum
  exact_mod_cast hsum

/-- C4: every 0/1 solution of the assignment constraints induces a map
sending each resource to its unique assigned task, and that map is a
bijection between the resource set and the task set. -/
theorem asg_feasible_perfect_matching (x : ℕ → ℕ → ℚ)
    (h01 : ∀ i ∈ resourcesFinset, ∀ j ∈ tasksFinset, x i j = 0 ∨ x i j = 1)
    (hcol : ∀ j ∈ tasksFinset, taskConstraint x j)
    (hrow : ∀ i ∈ resourcesFinset, resourceConstraint x i) :
    ∃ f : ℕ → ℕ, Set.BijOn f ↑resourcesFinset ↑tasksFinset ∧
      ∀ i ∈ resourcesFinset, ∀ j ∈ tasksFinset, (x i j = 1 ↔ f i = j) := by
  classical
  have hrowcard : ∀ i ∈ resourcesFinset, (tasksFinset.filter (fun j => x i j = 1)).card = 1 :=
    fun i hi => filter_card_of_sum_01 tasksFinset (fun j => x i j)
      (fun j hj => h01 i hi j hj) (hrow i hi)
  have hcolcard : ∀ j ∈ tasksFinset, (resourcesFinset.filter (fun i => x i j = 1)).card = 1 :=
    fun j hj => filter_card_of_sum_01 resourcesFinset (fun i => x i j)
      (fun i hi => h01 i hi j hj) (hcol j hj)
  have hex : ∀ i ∈ resourcesFinset, ∃ j, tasksFinset.filter (fun j => x i j = 1) = {j} :=
    fun i hi => Finset.card_eq_one.mp (hrowcard i hi)
  choose! f hf using hex
  have hfmem : ∀ i ∈ resourcesFinset, f i ∈ tasksFinset := by
    intro i hi
    have hm : f i ∈ tasksFinset.filter (fun j => x i j = 1) := by
      rw [hf i hi]; exact Finset.mem_singleton_self (f i)
    exact (Finset.mem_filter.mp hm).1
  have hiff : ∀ i ∈ resourcesFinset, ∀ j ∈ tasksFinset, (x i j = 1 ↔ f i = j) := by
    intro i hi j hj
    constructor
    · intro hx
      have hjm : j ∈ tasksFinset.filter (fun j => x i j = 1) :=
        Finset.mem_filter.mpr ⟨hj, hx⟩
      rw [hf i hi, Finset.mem_singleton] at hjm
      exact hjm.symm
    · intro hfij
      have hm : f i ∈ tasksFinset.filter (fun j => x i j = 1) := by
        rw [hf i hi]; exact Finset.mem_singleton_self (f i)
      rw [← hfij]
      exact (Finset.mem_filter.mp hm).2
  refine ⟨f, ⟨?_, ?_, ?_⟩, hiff⟩
  · intro i hi
    rw [Finset.mem_coe] at hi
    exact Finset.mem_coe.mpr (hfmem i hi)
  · intro i1 h1 i2 h2 heq
    rw [Finset.mem_coe] at h1 h2
    have hx1 : x i1 (f i1) = 1 := (hiff i1 h1 (f i1) (hfmem i1 h1)).mpr rfl
    have hx2 : x i2 (f i1) = 1 := by
      have hx0 : x i2 (f i2) = 1 := (hiff i2 h2 (f i2) (hfmem i2 h2)).mpr rfl
      rw [← heq] at hx0
      exact hx0
    obtain ⟨i0, hi0⟩ := Finset.card_eq_one.mp (hcolcard (f i1) (hfmem i1 h1))
    have m1 : i1 ∈ resourcesFinset.filter (fun i => x i (f i1) = 1) :=
      Finset.mem_filter.mpr ⟨h1, hx1⟩
    have m2 : i2 ∈ resourcesFinset.filter (fun i => x i (f i1) = 1) :=
      Finset.mem_filter.mpr ⟨h2, hx2⟩
    rw [hi0, Finset.mem_singleton] at m1 m2
    rw [m1, m2]
  · intro j hj
    rw [Finset.mem_coe] at hj
    obtain ⟨i0, hi0⟩ := Finset.card_eq_one.mp (hcolcard j hj)
    have hm : i0 ∈ resourcesFinset.filter (fun i => x i j = 1) := by
      rw [hi0]; exact Finset.mem_singleton_self i0
    obtain ⟨hi0m, hxi0⟩ := Finset.mem_filter.mp hm
    exact ⟨i0, Finset.mem_coe.mpr hi0m, (hiff i0 hi0m j hj).mp hxi0⟩

/-- Helper: the reported assignment point is a 0/1 matrix over the grid. -/
theorem optXA_01 : ∀ i ∈ resourcesFinset, ∀ j ∈ tasksFinset, optXA i j = 0 ∨ optXA i j = 1 := by
  intro i hi j hj
  by_cases h : j = optAssign i <;> simp [optXA, h]

/-- Helper: each task receives exactly one resource at the reported
assignment point. -/
theorem optXA_col : ∀ j ∈ tasksFinset, taskConstraint optXA j := by
  intro j hj
  show (∑ i ∈ resourcesFinset, optXA i j) = 1
  rw [show resourcesFinset = resources.toFinset from by decide,
    List.sum_toFinset _ (by decide)]
  fin_cases hj <;> norm_num [resources, optXA, optAssign]

/-- Helper: each resource is assigned exactly one task at the reported
assignment point. -/
theorem optXA_row : ∀ i ∈ resourcesFinset, resourceConstraint optXA i := by
  intro i hi
  show (∑ j ∈ tasksFinset, optXA i j) = 1
  rw [show tasksFinset = tasks.toFinset from by decide,
    List.sum_toFinset _ (by decide)]
  fin_cases hi <;> norm_num [tasks, optXA, optAssign]

theorem asg_feasible_perfect_matching_witness :
    ∃ f : ℕ → ℕ, Set.BijOn f ↑resourcesFinset ↑tasksFinset ∧
      ∀ i ∈ resourcesFinset, ∀ j ∈ tasksFinset, (optXA i j = 1 ↔ f i = j) :=
  asg_feasible_perfect_matching optXA optXA_01 optXA_col optXA_row

/-- Helper: a `filterMap` whose function yields `some` on every element of
the list is a `map`. -/
theorem filterMap_eq_map_of_forall {A B : Type} (l : List A) (g : A → Option B) (h : A → B)
    (hg : ∀ a ∈ l, g a = some (h a)) : l.filterMap g = l.map h := by
  induction l with
  | nil => rfl
  | cons a t ih =>
    rw [List.filterMap_cons_some (hg a (List.mem_cons_self a t)), List.map_cons,
      ih (fun d hd => hg d (List.mem_cons_of_mem a hd))]

/-- C10: on a 0/1 solution in which each resource has exactly one assigned
task, the printing loop emits exactly one pair per resource, in resource
order, naming the unique assigned task; the inner break keeps at most one
line per resource and the uniqueness hypothesis provides at least one. -/
theorem asg_printing_one_line_per_resource (x : ℕ → ℕ → ℚ) (f : ℕ → ℕ)
    (h01 : ∀ i ∈ resources, ∀ j ∈ tasks, x i j = 0 ∨ x i j = 1)
    (hf : ∀ i ∈ resources, f i ∈ tasks ∧ ∀ j ∈ tasks, (x i j = 1 ↔ j = f i)) :
    printedPairs x = resources.map (fun i => (i, f i)) ∧
    printedPairLines x = (resources.map (fun i => (i, f i))).map pairLine := by
  have key : ∀ i ∈ resources,
      (tasks.find? (fun j => decide ((0.1 : ℚ) < x i j))).map (fun j => (i, j)) =
        some (i, f i) := by
    intro i hi
    obtain ⟨hfi, hiff⟩ := hf i hi
    have hpf : decide ((0.1 : ℚ) < x i (f i)) = true := by
      have hx : x i (f i) = 1 := (hiff (f i) hfi).mpr rfl
      simp only [decide_eq_true_eq, hx]
      norm_num
    cases hfind : tasks.find? (fun j => decide ((0.1 : ℚ) < x i j)) with
    | none =>
      exact absurd hpf (List.find?_eq_none.mp hfind (f i) hfi)
    | some j0 =>
      have hj0mem : j0 ∈ tasks := List.mem_of_find?_eq_some hfind
      have hp := List.find?_some hfind
      have hlt : (0.1 : ℚ) < x i j0 := by
        simp only [decide_eq_true_eq] at hp
        exact hp
      have hx1 : x i j0 = 1 := by
        rcases h01 i hi j0 hj0mem with h | h
        · rw [h] at hlt; exact absurd hlt (by norm_num)
        · exact h
      rw [(hiff j0 hj0mem).mp hx1]
      rfl
  have h1 : printedPairs x = resources.map (fun i => (i, f i)) := by
    unfold printedPairs
    exact filterMap_eq_map_of_forall resources _ (fun i => (i, f i)) key
  exact ⟨h1, by unfold printedPairLines; rw [h1]⟩

/-- Helper: the reported assignment point is 0/1 over the iteration
lists. -/
theorem optXA_01_list : ∀ i ∈ resources, ∀ j ∈ tasks, optXA i j = 0 ∨ optXA i j = 1 := by
  intro i hi j hj
  by_cases h : j = optAssign i <;> simp [optXA, h]

/-- Helper: at the reported assignment point, each resource's unique task
is the reported one. -/
theorem optXA_unique : ∀ i ∈ resources,
    optAssign i ∈ tasks ∧ ∀ j ∈ tasks, (optXA i j = 1 ↔ j = optAssign i) := by
  intro i hi
  refine ⟨by fin_cases hi <;> decide, ?_⟩
  intro j hj
  constructor
  · intro hx
    by_cases h : j = optAssign i
    · exact h
    · rw [optXA, if_neg h] at hx
      exact absurd hx (by norm_num)
  · intro h
    rw [optXA, if_pos h]

theorem asg_printing_one_line_per_resource_witness :
    printedPairs optXA = resources.map (fun i => (i, optAssign i)) ∧
    printedPairLines optXA = (resources.map (fun i => (i, optAssign i))).map pairLine :=
  asg_printing_one_line_per_resource optXA optAssign optXA_01_list optXA_unique

end Asg
